import Mathlib

/-!
# Verification of the Centratore-oggetti layout calculator

Shallow embedding of the two source components:

* the layout engine `calculatePositions` (src/App.tsx): parsing-adjacent
  validation followed by one of two placement policies, producing the
  `VisualData` record that drives rendering and the textual report;
* the view-transform controller (src/Visualization.tsx): the wheel / pan /
  pinch / reset handlers that maintain the `{scale, translateX, translateY}`
  transform, and the `DimensionLabel` suppression rule.

Numbers are modelled as exact rationals (`ℚ`): the source performs
double-precision arithmetic with no internal rounding, and the specification
treats the arithmetic as exact real arithmetic (tolerance 1e-9).  The
IEEE special values `NaN`/`±Infinity`, which matter only for the validation
step, are modelled separately by the `JSNum` type.
-/

/-- One placed object, mirroring the `{ start, width }` entries pushed into
`visualObjects` in `calculatePositions` (src/App.tsx). -/
structure Obj where
  start : ℚ
  width : ℚ
  deriving DecidableEq, Repr

/-- Placement mode tag of `VisualData` (src/Visualization.tsx, `mode` field). -/
inductive Mode where
  | uniform
  | desired
  deriving DecidableEq, Repr

/-- The `VisualData` record handed from `calculatePositions` to the
visualization component (src/Visualization.tsx interface `VisualData`):
optional fields are populated exactly as in the source. -/
structure VisualData where
  wallWidth : ℚ
  objects : List Obj
  mode : Mode
  gapSize : Option ℚ := none
  sideGap : Option ℚ := none
  innerGap : Option ℚ := none
  deriving DecidableEq, Repr

/-- The validation-error taxonomy of the spec (§7); each constructor stands
for one of the `setError(...)` messages of `calculatePositions`. -/
inductive VErr where
  | invalidInput
  | nonPositiveWall
  | nonPositiveObject
  | tooFewObjects
  | negativeSpacing
  | objectsExceedWall
  | spacingExceedsWall
  deriving DecidableEq, Repr

/-- Discriminated outcome of one calculation: either a validation error or
the `VisualData` produced on success. -/
inductive CalcResult where
  | error (e : VErr)
  | ok (v : VisualData)
  deriving DecidableEq, Repr

/-- The placement loop of `calculatePositions`: starting at `pos`, place
`n` objects of width `objW`, each next one at `previousEnd + gap`
(`currentPos = objEnd + space` resp. `currentPos = objEnd + gapSize`). -/
def buildObjects : ℕ → ℚ → ℚ → ℚ → List Obj
  | 0, _, _, _ => []
  | n + 1, pos, objW, gap => ⟨pos, objW⟩ :: buildObjects n (pos + objW + gap) objW gap

/-- The layout engine: `calculatePositions` (src/App.tsx, lines 26-147)
restricted to finite parsed inputs, over exact rationals.  The `isNaN`
check (line 36), which can only fire on non-finite parses, is modelled
separately by `validateJS` below; all remaining checks, the branch
selection `space > 0 && numObj > 1`, and both placement loops are
translated literally. -/
def computeLayout (wallW : ℚ) (numObj : ℤ) (objW spacing : ℚ) : CalcResult :=
  if wallW ≤ 0 then .error .nonPositiveWall
  else if objW ≤ 0 then .error .nonPositiveObject
  else if numObj < 1 then .error .tooFewObjects
  else if spacing < 0 then .error .negativeSpacing
  else if (numObj : ℚ) * objW > wallW then .error .objectsExceedWall
  else if 0 < spacing ∧ 1 < numObj then
    let totalOccupiedWidth := (numObj : ℚ) * objW + ((numObj : ℚ) - 1) * spacing
    if totalOccupiedWidth > wallW then .error .spacingExceedsWall
    else
      let sideGap := (wallW - totalOccupiedWidth) / 2
      .ok { wallWidth := wallW
            objects := buildObjects numObj.toNat sideGap objW spacing
            mode := .desired
            sideGap := some sideGap
            innerGap := some spacing }
  else if numObj = 1 then
    .ok { wallWidth := wallW
          objects := [⟨(wallW - objW) / 2, objW⟩]
          mode := .desired
          sideGap := some ((wallW - objW) / 2)
          innerGap := some 0 }
  else
    let gapSize := (wallW - (numObj : ℚ) * objW) / ((numObj : ℚ) + 1)
    .ok { wallWidth := wallW
          objects := buildObjects numObj.toNat gapSize objW gapSize
          mode := .uniform
          gapSize := some gapSize }

/-- Start position of the first object (0 on an empty list). -/
def firstStart : List Obj → ℚ
  | [] => 0
  | a :: _ => a.start

/-- End position (`start + width`) of the last object (0 on an empty list). -/
def lastEnd : List Obj → ℚ
  | [] => 0
  | [a] => a.start + a.width
  | _ :: b :: rest => lastEnd (b :: rest)

/-- The gaps between consecutive objects, left to right. -/
def innerGaps : List Obj → List ℚ
  | a :: b :: rest => (b.start - (a.start + a.width)) :: innerGaps (b :: rest)
  | _ => []

/-- All gaps of a layout on a wall of length `wallW`: wall-to-first-object,
between consecutive objects, and last-object-to-wall. -/
def gapList (wallW : ℚ) (objs : List Obj) : List ℚ :=
  match objs with
  | [] => [wallW]
  | _ :: _ => firstStart objs :: (innerGaps objs ++ [wallW - lastEnd objs])

theorem buildObjects_succ (n : ℕ) (pos objW gap : ℚ) :
    buildObjects (n + 1) pos objW gap =
      ⟨pos, objW⟩ :: buildObjects n (pos + objW + gap) objW gap := rfl

theorem buildObjects_eq_map (objW gap : ℚ) (n : ℕ) :
    ∀ pos : ℚ, buildObjects n pos objW gap =
      (List.range n).map (fun i => ⟨pos + i * (objW + gap), objW⟩) := by
  induction n with
  | zero => intro pos; rfl
  | succ k ih =>
    intro pos
    rw [buildObjects_succ, ih, List.range_succ_eq_map, List.map_cons, List.map_map]
    congr 1
    · simp
    · refine List.map_congr_left fun i _ => ?_
      simp only [Function.comp_apply]
      congr 1
      push_cast
      ring

theorem innerGaps_buildObjects (objW gap : ℚ) (n : ℕ) :
    ∀ pos : ℚ, innerGaps (buildObjects (n + 1) pos objW gap) = List.replicate n gap := by
  induction n with
  | zero => intro pos; rfl
  | succ k ih =>
    intro pos
    rw [buildObjects_succ, buildObjects_succ, List.replicate_succ]
    show (pos + objW + gap - (pos + objW)) ::
        innerGaps (buildObjects (k + 1) (pos + objW + gap) objW gap) = _
    rw [ih]
    congr 1
    ring

theorem lastEnd_buildObjects (objW gap : ℚ) (n : ℕ) :
    ∀ pos : ℚ, lastEnd (buildObjects (n + 1) pos objW gap) =
      pos + n * (objW + gap) + objW := by
  induction n with
  | zero =>
    intro pos
    show pos + objW = pos + (0 : ℕ) * (objW + gap) + objW
    push_cast
    ring
  | succ k ih =>
    intro pos
    rw [buildObjects_succ, buildObjects_succ]
    show lastEnd (buildObjects (k + 1) (pos + objW + gap) objW gap) = _
    rw [ih]
    push_cast
    ring

theorem widthSum_buildObjects (objW gap : ℚ) (n : ℕ) :
    ∀ pos : ℚ, ((buildObjects n pos objW gap).map Obj.width).sum = n * objW := by
  induction n with
  | zero => intro pos; simp [buildObjects]
  | succ k ih =>
    intro pos
    rw [buildObjects_succ, List.map_cons, List.sum_cons, ih]
    push_cast
    ring

theorem firstStart_buildObjects (objW gap : ℚ) (n : ℕ) (pos : ℚ) :
    firstStart (buildObjects (n + 1) pos objW gap) = pos := rfl

theorem gapList_buildObjects (wallW objW gap : ℚ) (n : ℕ) (pos : ℚ) :
    gapList wallW (buildObjects (n + 1) pos objW gap) =
      pos :: (List.replicate n gap ++ [wallW - (pos + n * (objW + gap) + objW)]) := by
  rw [buildObjects_succ]
  show firstStart _ :: (innerGaps _ ++ [wallW - lastEnd _]) = _
  rw [← buildObjects_succ, firstStart_buildObjects, innerGaps_buildObjects,
    lastEnd_buildObjects]

theorem sum_replicate_rat (n : ℕ) (x : ℚ) : (List.replicate n x).sum = n * x := by
  rw [List.sum_replicate, nsmul_eq_mul]

/-!
## IEEE special values at the validation boundary

`parseFloat` can produce `NaN` or `±Infinity`.  `JSNum` models a parsed
JavaScript number as either a special value or a finite (exact) rational,
with the IEEE comparison and multiplication semantics the validation code
relies on.
-/

/-- A parsed JavaScript number: `NaN`, `±Infinity`, or a finite value. -/
inductive JSNum where
  | nan
  | posInf
  | negInf
  | fin (q : ℚ)
  deriving DecidableEq, Repr

/-- `Number.isNaN` / global `isNaN` on an already-parsed number. -/
def JSNum.isNaN : JSNum → Bool
  | .nan => true
  | _ => false

/-- `Number.isFinite`: true exactly on finite values. -/
def JSNum.isFinite : JSNum → Bool
  | .fin _ => true
  | _ => false

/-- IEEE `a <= b`: false whenever either side is `NaN`. -/
def JSNum.le : JSNum → JSNum → Bool
  | .nan, _ => false
  | _, .nan => false
  | .negInf, _ => true
  | _, .posInf => true
  | .posInf, _ => false
  | _, .negInf => false
  | .fin a, .fin b => decide (a ≤ b)

/-- IEEE `a < b`: false whenever either side is `NaN`. -/
def JSNum.lt : JSNum → JSNum → Bool
  | .nan, _ => false
  | _, .nan => false
  | .negInf, .negInf => false
  | .negInf, _ => true
  | _, .negInf => false
  | .posInf, _ => false
  | .fin _, .posInf => true
  | .fin a, .fin b => decide (a < b)

/-- IEEE multiplication on the modelled values (`0 * ±Infinity = NaN`). -/
def JSNum.mul : JSNum → JSNum → JSNum
  | .nan, _ => .nan
  | _, .nan => .nan
  | .posInf, .posInf => .posInf
  | .posInf, .negInf => .negInf
  | .negInf, .posInf => .negInf
  | .negInf, .negInf => .posInf
  | .posInf, .fin q => if 0 < q then .posInf else if q < 0 then .negInf else .nan
  | .fin q, .posInf => if 0 < q then .posInf else if q < 0 then .negInf else .nan
  | .negInf, .fin q => if 0 < q then .negInf else if q < 0 then .posInf else .nan
  | .fin q, .negInf => if 0 < q then .negInf else if q < 0 then .posInf else .nan
  | .fin a, .fin b => .fin (a * b)

/-- The validation prefix of `calculatePositions` (src/App.tsx, lines 36-65)
over parsed JavaScript numbers: the `isNaN` guard followed by the sign /
count / spacing / total-width checks, returning the first failing check's
error, or `none` when validation passes and layout proceeds. -/
def validateJS (wallW numObj objW spacing : JSNum) : Option VErr :=
  if wallW.isNaN || numObj.isNaN || objW.isNaN then some .invalidInput
  else if wallW.le (.fin 0) then some .nonPositiveWall
  else if objW.le (.fin 0) then some .nonPositiveObject
  else if numObj.lt (.fin 1) then some .tooFewObjects
  else if spacing.lt (.fin 0) then some .negativeSpacing
  else if wallW.lt (numObj.mul objW) then some .objectsExceedWall
  else none

/-- The coercion `parseFloat(desiredSpacing) || 0` (src/App.tsx, line 34):
a falsy parse result (`NaN`, `0`, `-0`) is replaced by `0`. -/
def coerceSpacing : JSNum → JSNum
  | .nan => .fin 0
  | .fin q => if q = 0 then .fin 0 else .fin q
  | x => x

/-!
## Application state transition

`calculatePositions` is the click handler of the calculate button: it first
clears `error`, `results` and `visualData`, then either stores the first
failing check's error or stores the report text together with the
`VisualData`.  `calcStep` is the net state transition of one click.
-/

/-- The numeric content of the `resultHtml` report: the code prints the gap
figures of the chosen mode followed by start / center / end of every
object. -/
def reportOf (v : VisualData) : List ℚ :=
  let triples := v.objects.flatMap fun a => [a.start, a.start + a.width / 2, a.start + a.width]
  match v.mode, v.gapSize, v.sideGap, v.innerGap with
  | .uniform, some g, _, _ => g :: triples
  | .desired, _, some sg, some ig =>
      if v.objects.length = 1 then triples else sg :: ig :: triples
  | _, _, _, _ => triples

/-- The three pieces of component state of `App` written by
`calculatePositions`: `results`, `visualData` and `error`
(src/App.tsx, lines 11-13). -/
structure AppState where
  results : Option (List ℚ)
  visualData : Option VisualData
  error : Option VErr
  deriving DecidableEq, Repr

/-- Net state transition of one `calculatePositions` click on finite parsed
inputs (src/App.tsx, lines 26-147): the previous state is discarded
(`setError(null); setResults(null); setVisualData(null)`), then either the
error or the full result is stored. -/
def calcStep (_prev : AppState) (wallW : ℚ) (numObj : ℤ) (objW spacing : ℚ) : AppState :=
  match computeLayout wallW numObj objW spacing with
  | .error e => { results := none, visualData := none, error := some e }
  | .ok v => { results := some (reportOf v), visualData := some v, error := none }

/-- The mode of a calculation outcome, when it succeeded. -/
def modeOf : CalcResult → Option Mode
  | .error _ => none
  | .ok v => some v.mode

/-!
## View-transform controller (src/Visualization.tsx)
-/

/-- The interactive transform `{ scale, translateX, translateY }`. -/
structure Transform where
  scale : ℚ
  translateX : ℚ
  translateY : ℚ
  deriving DecidableEq, Repr

/-- The wheel handler's `setTransform` updater (src/Visualization.tsx,
lines 44-57): `scaleAmount = -deltaY * 0.001`, new scale clamped below at 1,
translation recomputed to keep the cursor point fixed. -/
def handleWheel (deltaY mouseX mouseY : ℚ) (prev : Transform) : Transform :=
  let scaleAmount := -deltaY * (1 / 1000)
  let newScale := max 1 (prev.scale + scaleAmount)
  { scale := newScale
    translateX := mouseX - (mouseX - prev.translateX) * (newScale / prev.scale)
    translateY := mouseY - (mouseY - prev.translateY) * (newScale / prev.scale) }

/-- Inverse transform of a screen x-coordinate: the model coordinate a
screen point corresponds to under transform `t`. -/
def invX (t : Transform) (x : ℚ) : ℚ := (x - t.translateX) / t.scale

/-- Inverse transform of a screen y-coordinate. -/
def invY (t : Transform) (y : ℚ) : ℚ := (y - t.translateY) / t.scale

/-- `DimensionLabel`'s visibility rule (src/Visualization.tsx, line 145):
`showLabel = width > 25 / transform.scale` where `width = endX - startX`
and the endpoints are model coordinates already multiplied by the fit
scale factor. -/
def showLabel (startX endX scale : ℚ) : Bool :=
  decide (endX - startX > 25 / scale)

/-- The component-local state of `Visualization` that the interaction
handlers read and write: the transform, the panning flag, the pan start
point, the gesture-start transform snapshot, the initial pinch distance,
and the observed container width. -/
structure VizState where
  containerWidth : ℚ
  transform : Transform
  isPanning : Bool
  startPanPoint : ℚ × ℚ
  startTransform : Transform
  initialPinchDistance : ℚ
  deriving DecidableEq, Repr

/-- The initial `useState` values of `Visualization`. -/
def initVizState : VizState :=
  { containerWidth := 0
    transform := ⟨1, 0, 0⟩
    isPanning := false
    startPanPoint := (0, 0)
    startTransform := ⟨1, 0, 0⟩
    initialPinchDistance := 0 }

/-- One interaction event, carrying the values the handler reads off the
browser event: cursor offsets relative to the svg rect, wheel delta, touch
midpoints, and (for pinch) the two-finger distance computed by the
handler's `Math.sqrt` call, taken here as the event payload. -/
inductive VEvent where
  | wheel (deltaY mouseX mouseY : ℚ)
  | mouseDown (x y : ℚ)
  | mouseMove (x y : ℚ)
  | mouseUpOrLeave
  | touchStartOne (x y : ℚ)
  | touchStartTwo (dist : ℚ)
  | touchMoveOne (x y : ℚ)
  | touchMoveTwo (dist midX midY : ℚ)
  | touchEnd
  | resetClick
  | resize (w : ℚ)

/-- One step of the controller: the corresponding event handler of
`Visualization` (src/Visualization.tsx), translated case by case. -/
def step (s : VizState) : VEvent → VizState
  | .wheel deltaY mouseX mouseY =>
      { s with transform := handleWheel deltaY mouseX mouseY s.transform }
  | .mouseDown x y =>
      { s with isPanning := true, startPanPoint := (x, y), startTransform := s.transform }
  | .mouseMove x y =>
      if s.isPanning then
        { s with transform :=
            { s.transform with
              translateX := s.startTransform.translateX + (x - s.startPanPoint.1)
              translateY := s.startTransform.translateY + (y - s.startPanPoint.2) } }
      else s
  | .mouseUpOrLeave => { s with isPanning := false }
  | .touchStartOne x y =>
      { s with isPanning := true, startPanPoint := (x, y), startTransform := s.transform }
  | .touchStartTwo dist =>
      { s with isPanning := false, initialPinchDistance := dist,
               startTransform := s.transform }
  | .touchMoveOne x y =>
      if s.isPanning then
        { s with transform :=
            { s.transform with
              translateX := s.startTransform.translateX + (x - s.startPanPoint.1)
              translateY := s.startTransform.translateY + (y - s.startPanPoint.2) } }
      else s
  | .touchMoveTwo dist midX midY =>
      if 0 < s.initialPinchDistance then
        let scaleMultiplier := dist / s.initialPinchDistance
        let newScale := max 1 (s.startTransform.scale * scaleMultiplier)
        { s with transform :=
            { scale := newScale
              translateX := midX - (midX - s.startTransform.translateX) *
                (newScale / s.startTransform.scale)
              translateY := midY - (midY - s.startTransform.translateY) *
                (newScale / s.startTransform.scale) } }
      else s
  | .touchEnd => { s with isPanning := false, initialPinchDistance := 0 }
  | .resetClick => { s with transform := ⟨1, 0, 0⟩ }
  | .resize w =>
      if 0 < w then { s with containerWidth := w, transform := ⟨1, 0, 0⟩ }
      else s

/-!
## Layout-engine lemmas
-/

theorem gapList_singleton (wallW : ℚ) (a : Obj) :
    gapList wallW [a] = [a.start, wallW - (a.start + a.width)] := rfl

/-- Inversion of a successful `computeLayout` run: the validation facts,
and the exact branch and `VisualData` record produced. -/
theorem computeLayout_ok_inv (wallW : ℚ) (numObj : ℤ) (objW spacing : ℚ) (res : VisualData)
    (hok : computeLayout wallW numObj objW spacing = CalcResult.ok res) :
    (0 < wallW ∧ 0 < objW ∧ 1 ≤ numObj ∧ 0 ≤ spacing ∧ (numObj : ℚ) * objW ≤ wallW) ∧
    ((0 < spacing ∧ 1 < numObj ∧
        (numObj : ℚ) * objW + ((numObj : ℚ) - 1) * spacing ≤ wallW ∧
        res = { wallWidth := wallW
                objects := buildObjects numObj.toNat
                  ((wallW - ((numObj : ℚ) * objW + ((numObj : ℚ) - 1) * spacing)) / 2)
                  objW spacing
                mode := .desired
                sideGap := some
                  ((wallW - ((numObj : ℚ) * objW + ((numObj : ℚ) - 1) * spacing)) / 2)
                innerGap := some spacing }) ∨
      (numObj = 1 ∧
        res = { wallWidth := wallW
                objects := [⟨(wallW - objW) / 2, objW⟩]
                mode := .desired
                sideGap := some ((wallW - objW) / 2)
                innerGap := some 0 }) ∨
      (¬(0 < spacing ∧ 1 < numObj) ∧ 1 < numObj ∧
        res = { wallWidth := wallW
                objects := buildObjects numObj.toNat
                  ((wallW - (numObj : ℚ) * objW) / ((numObj : ℚ) + 1)) objW
                  ((wallW - (numObj : ℚ) * objW) / ((numObj : ℚ) + 1))
                mode := .uniform
                gapSize := some ((wallW - (numObj : ℚ) * objW) / ((numObj : ℚ) + 1)) })) := by
  simp only [computeLayout] at hok
  split_ifs at hok with h1 h2 h3 h4 h5 h6 h7 h8
  · simp only [CalcResult.ok.injEq] at hok
    refine ⟨⟨by linarith, by linarith, by omega, ?_, by linarith⟩, Or.inl ⟨h6.1, h6.2, by linarith, hok.symm⟩⟩
    exact le_of_lt h6.1
  · simp only [CalcResult.ok.injEq] at hok
    refine ⟨⟨by linarith, by linarith, by omega, by linarith, by linarith⟩,
      Or.inr (Or.inl ⟨h8, hok.symm⟩)⟩
  · simp only [CalcResult.ok.injEq] at hok
    refine ⟨⟨by linarith, by linarith, by omega, by linarith, by linarith⟩,
      Or.inr (Or.inr ⟨h6, by omega, hok.symm⟩)⟩

/-- Decomposition of `numObj.toNat` for an object count `> 1`, together
with the matching cast identity over `ℚ`. -/
theorem toNat_decomp (numObj : ℤ) (hn : 1 < numObj) :
    ∃ m : ℕ, numObj.toNat = m + 1 ∧ (numObj : ℚ) = (m : ℚ) + 1 := by
  refine ⟨numObj.toNat - 1, by omega, ?_⟩
  have h1 : ((numObj.toNat : ℤ) : ℚ) = (numObj : ℚ) := by
    rw [Int.toNat_of_nonneg (by omega)]
  rw [← h1]
  have h2 : (numObj.toNat : ℤ) = ((numObj.toNat - 1 : ℕ) : ℤ) + 1 := by omega
  rw [h2]
  push_cast
  ring

/-- C1: for every request that passes validation (in either placement
policy), the sum of all gaps (wall-to-first, consecutive, last-to-wall)
plus the sum of all object widths equals the wall length exactly; moreover
the first object starts at a nonnegative position and the last object ends
no later than the wall end. -/
theorem c1_valid_layout_conservation (wallW : ℚ) (numObj : ℤ) (objW spacing : ℚ)
    (res : VisualData) (hok : computeLayout wallW numObj objW spacing = CalcResult.ok res) :
    (gapList wallW res.objects).sum + (res.objects.map Obj.width).sum = wallW ∧
    0 ≤ firstStart res.objects ∧ lastEnd res.objects ≤ wallW := by
  obtain ⟨⟨hw, ho, hn1, hs0, hwo⟩, hbr⟩ := computeLayout_ok_inv _ _ _ _ _ hok
  rcases hbr with ⟨hs, hn, hocc, hres⟩ | ⟨hn, hres⟩ | ⟨hns, hn, hres⟩
  · -- desired-spacing branch
    subst hres
    obtain ⟨m, hm, hmq⟩ := toNat_decomp numObj hn
    rw [hmq] at hocc
    simp only [hm, gapList_buildObjects, lastEnd_buildObjects, firstStart_buildObjects,
      widthSum_buildObjects, List.sum_cons, List.sum_append, List.sum_singleton,
      List.sum_nil, sum_replicate_rat, hmq]
    have hsgnn : 0 ≤ (wallW - (((m : ℚ) + 1) * objW + ((m : ℚ) + 1 - 1) * spacing)) / 2 := by
      have : (0 : ℚ) ≤ wallW - (((m : ℚ) + 1) * objW + ((m : ℚ) + 1 - 1) * spacing) := by
        linarith
      linarith
    refine ⟨by push_cast; ring, hsgnn, ?_⟩
    have h2 : ((wallW - (((m : ℚ) + 1) * objW + ((m : ℚ) + 1 - 1) * spacing)) / 2) * 2 =
        wallW - (((m : ℚ) + 1) * objW + ((m : ℚ) + 1 - 1) * spacing) := by ring
    nlinarith [hsgnn, h2]
  · -- single-object branch
    subst hres
    subst hn
    simp only [gapList_singleton, firstStart, lastEnd, List.sum_cons, List.sum_nil,
      List.map_cons, List.map_nil]
    have how : objW ≤ wallW := by
      have : ((1 : ℤ) : ℚ) * objW ≤ wallW := hwo
      push_cast at this
      linarith
    refine ⟨by ring, by linarith, by linarith⟩
  · -- uniform branch
    subst hres
    obtain ⟨m, hm, hmq⟩ := toNat_decomp numObj hn
    have hn2 : (2 : ℚ) ≤ (numObj : ℚ) := by exact_mod_cast hn
    have hne : ((numObj : ℚ) + 1) ≠ 0 := by linarith
    have hkey : ((wallW - (numObj : ℚ) * objW) / ((numObj : ℚ) + 1)) * ((numObj : ℚ) + 1) =
        wallW - (numObj : ℚ) * objW := div_mul_cancel₀ _ hne
    have hg0 : 0 ≤ (wallW - (numObj : ℚ) * objW) / ((numObj : ℚ) + 1) := by
      apply div_nonneg (by linarith) (by linarith)
    rw [hmq] at hkey hg0
    simp only [hm, gapList_buildObjects, lastEnd_buildObjects, firstStart_buildObjects,
      widthSum_buildObjects, List.sum_cons, List.sum_append, List.sum_singleton,
      List.sum_nil, sum_replicate_rat, hmq]
    refine ⟨by push_cast; ring, hg0, ?_⟩
    nlinarith [hkey, hg0]

/-- Full description of the uniform branch: gap formula, object starts and
the equal-gap list, for any request with more than one object and
spacing 0 that passes validation. -/
theorem uniform_branch_inv (wallW : ℚ) (numObj : ℤ) (objW : ℚ) (res : VisualData)
    (hn : 1 < numObj) (hok : computeLayout wallW numObj objW 0 = CalcResult.ok res) :
    res.mode = Mode.uniform ∧
    res.gapSize = some ((wallW - (numObj : ℚ) * objW) / ((numObj : ℚ) + 1)) ∧
    res.objects = (List.range numObj.toNat).map
      (fun i => ⟨(wallW - (numObj : ℚ) * objW) / ((numObj : ℚ) + 1) +
        i * (objW + (wallW - (numObj : ℚ) * objW) / ((numObj : ℚ) + 1)), objW⟩) ∧
    gapList wallW res.objects =
      List.replicate (numObj.toNat + 1) ((wallW - (numObj : ℚ) * objW) / ((numObj : ℚ) + 1)) := by
  obtain ⟨⟨hw, ho, hn1, hs0, hwo⟩, hbr⟩ := computeLayout_ok_inv _ _ _ _ _ hok
  rcases hbr with ⟨hs, _, _, _⟩ | ⟨h1, _⟩ | ⟨_, _, hres⟩
  · exact absurd hs (by norm_num)
  · exact absurd h1 (by omega)
  · subst hres
    refine ⟨rfl, rfl, buildObjects_eq_map _ _ _ _, ?_⟩
    obtain ⟨m, hm, hmq⟩ := toNat_decomp numObj hn
    have hn2 : (2 : ℚ) ≤ (numObj : ℚ) := by exact_mod_cast hn
    have hne : ((numObj : ℚ) + 1) ≠ 0 := by linarith
    have hkey : ((wallW - (numObj : ℚ) * objW) / ((numObj : ℚ) + 1)) * ((numObj : ℚ) + 1) =
        wallW - (numObj : ℚ) * objW := div_mul_cancel₀ _ hne
    rw [hmq] at hkey
    rw [hm, gapList_buildObjects]
    have hlast : wallW -
        ((wallW - (numObj : ℚ) * objW) / ((numObj : ℚ) + 1) +
          (m : ℚ) * (objW + (wallW - (numObj : ℚ) * objW) / ((numObj : ℚ) + 1)) + objW) =
        (wallW - (numObj : ℚ) * objW) / ((numObj : ℚ) + 1) := by
      rw [hmq]
      linarith [hkey]
    rw [hlast, List.replicate_succ]
    congr 1
    rw [← List.replicate_succ']

/-- C2: for every valid request with more than one object and desired
spacing 0 (uniform policy): `gapSize = (wallLength - objectCount*objectWidth)
/ (objectCount + 1)`, object `i` starts at `gapSize + i*(objectWidth +
gapSize)`, and all `objectCount + 1` gaps equal `gapSize`. -/
theorem c2_uniform_layout (wallW : ℚ) (numObj : ℤ) (objW : ℚ) (res : VisualData)
    (hn : 1 < numObj) (hok : computeLayout wallW numObj objW 0 = CalcResult.ok res) :
    res.mode = Mode.uniform ∧
    res.gapSize = some ((wallW - (numObj : ℚ) * objW) / ((numObj : ℚ) + 1)) ∧
    res.objects = (List.range numObj.toNat).map
      (fun i => ⟨(wallW - (numObj : ℚ) * objW) / ((numObj : ℚ) + 1) +
        i * (objW + (wallW - (numObj : ℚ) * objW) / ((numObj : ℚ) + 1)), objW⟩) ∧
    gapList wallW res.objects =
      List.replicate (numObj.toNat + 1) ((wallW - (numObj : ℚ) * objW) / ((numObj : ℚ) + 1)) :=
  uniform_branch_inv wallW numObj objW res hn hok

/-- Witness for C2 at the spec's concrete example
`computeLayout(300, 3, 10, 0)`: gap 67.5 and starts 67.5, 145, 222.5. -/
theorem c2_uniform_layout_witness :
    (1 : ℤ) < 3 ∧
    computeLayout 300 3 10 0 = CalcResult.ok
      ⟨300, [⟨135/2, 10⟩, ⟨145, 10⟩, ⟨445/2, 10⟩], Mode.uniform, some (135/2), none, none⟩ ∧
    (⟨300, [⟨135/2, 10⟩, ⟨145, 10⟩, ⟨445/2, 10⟩], Mode.uniform, some (135/2), none, none⟩ :
      VisualData).mode = Mode.uniform := by
  refine ⟨by norm_num, by norm_num [computeLayout, buildObjects], ?_⟩
  exact (c2_uniform_layout 300 3 10 _ (by norm_num)
    (by norm_num [computeLayout, buildObjects])).1

/-- C3: for every valid request with more than one object and positive
desired spacing (desired-spacing policy): the side gap is
`(wallLength - (objectCount*objectWidth + (objectCount-1)*desiredSpacing))/2`,
the first object starts at the side gap, each next object starts at the
previous end plus `desiredSpacing`, the two side gaps are equal and every
inner gap equals `desiredSpacing`. -/
theorem c3_desired_layout (wallW : ℚ) (numObj : ℤ) (objW spacing : ℚ) (res : VisualData)
    (hn : 1 < numObj) (hs : 0 < spacing)
    (hok : computeLayout wallW numObj objW spacing = CalcResult.ok res) :
    res.mode = Mode.desired ∧
    res.sideGap = some ((wallW - ((numObj : ℚ) * objW + ((numObj : ℚ) - 1) * spacing)) / 2) ∧
    res.innerGap = some spacing ∧
    res.objects = (List.range numObj.toNat).map
      (fun i => ⟨(wallW - ((numObj : ℚ) * objW + ((numObj : ℚ) - 1) * spacing)) / 2 +
        i * (objW + spacing), objW⟩) ∧
    gapList wallW res.objects =
      (wallW - ((numObj : ℚ) * objW + ((numObj : ℚ) - 1) * spacing)) / 2 ::
        (List.replicate (numObj.toNat - 1) spacing ++
          [(wallW - ((numObj : ℚ) * objW + ((numObj : ℚ) - 1) * spacing)) / 2]) := by
  obtain ⟨⟨hw, ho, hn1, hs0, hwo⟩, hbr⟩ := computeLayout_ok_inv _ _ _ _ _ hok
  rcases hbr with ⟨_, _, hocc, hres⟩ | ⟨h1, _⟩ | ⟨hns, _, _⟩
  · subst hres
    refine ⟨rfl, rfl, rfl, buildObjects_eq_map _ _ _ _, ?_⟩
    obtain ⟨m, hm, hmq⟩ := toNat_decomp numObj hn
    rw [hm, gapList_buildObjects]
    have hlast : wallW -
        ((wallW - ((numObj : ℚ) * objW + ((numObj : ℚ) - 1) * spacing)) / 2 +
          (m : ℚ) * (objW + spacing) + objW) =
        (wallW - ((numObj : ℚ) * objW + ((numObj : ℚ) - 1) * spacing)) / 2 := by
      have h2 : ((wallW - ((numObj : ℚ) * objW + ((numObj : ℚ) - 1) * spacing)) / 2) * 2 =
          wallW - ((numObj : ℚ) * objW + ((numObj : ℚ) - 1) * spacing) := by ring
      rw [hmq] at h2 ⊢
      linarith [h2]
    rw [hlast]
    congr 2
  · exact absurd h1 (by omega)
  · exact absurd hns (by exact fun h => h ⟨hs, hn⟩)

/-- Witness for C3 at the spec's concrete example
`computeLayout(300, 3, 10, 20)`: side gap 115 and starts 115, 145, 175. -/
theorem c3_desired_layout_witness :
    (1 : ℤ) < 3 ∧ (0 : ℚ) < 20 ∧
    computeLayout 300 3 10 20 = CalcResult.ok
      ⟨300, [⟨115, 10⟩, ⟨145, 10⟩, ⟨175, 10⟩], Mode.desired, none, some 115, some 20⟩ ∧
    (⟨300, [⟨115, 10⟩, ⟨145, 10⟩, ⟨175, 10⟩], Mode.desired, none, some 115, some 20⟩ :
      VisualData).mode = Mode.desired := by
  refine ⟨by norm_num, by norm_num, by norm_num [computeLayout, buildObjects], ?_⟩
  exact (c3_desired_layout 300 3 10 20 _ (by norm_num) (by norm_num)
    (by norm_num [computeLayout, buildObjects])).1

/-- C9: in uniform mode the gap size is strictly decreasing in the object
width: two valid requests differing only in `objectWidth` (same wall,
same count `> 1`, spacing 0) have strictly ordered gap sizes, the larger
width giving the strictly smaller gap. -/
theorem c9_gap_monotone (wallW objW₁ objW₂ : ℚ) (numObj : ℤ) (res₁ res₂ : VisualData)
    (g₁ g₂ : ℚ) (hn : 1 < numObj)
    (h₁ : computeLayout wallW numObj objW₁ 0 = CalcResult.ok res₁)
    (h₂ : computeLayout wallW numObj objW₂ 0 = CalcResult.ok res₂)
    (hlt : objW₁ < objW₂)
    (hg₁ : res₁.gapSize = some g₁) (hg₂ : res₂.gapSize = some g₂) :
    g₂ < g₁ := by
  have e₁ := (uniform_branch_inv wallW numObj objW₁ res₁ hn h₁).2.1
  have e₂ := (uniform_branch_inv wallW numObj objW₂ res₂ hn h₂).2.1
  rw [hg₁, Option.some.injEq] at e₁
  rw [hg₂, Option.some.injEq] at e₂
  subst e₁
  subst e₂
  have hn2 : (2 : ℚ) ≤ (numObj : ℚ) := by exact_mod_cast hn
  have hpos : (0 : ℚ) < (numObj : ℚ) + 1 := by linarith
  have hmul : (numObj : ℚ) * objW₁ < (numObj : ℚ) * objW₂ :=
    mul_lt_mul_of_pos_left hlt (by linarith)
  have hsub : wallW - (numObj : ℚ) * objW₂ < wallW - (numObj : ℚ) * objW₁ := by linarith
  rw [div_eq_mul_inv, div_eq_mul_inv]
  exact mul_lt_mul_of_pos_right hsub (inv_pos.mpr hpos)

/-- Witness for C1 at the concrete request `computeLayout(300, 3, 10, 0)`. -/
theorem c1_valid_layout_conservation_witness :
    computeLayout 300 3 10 0 = CalcResult.ok
      ⟨300, [⟨135/2, 10⟩, ⟨145, 10⟩, ⟨445/2, 10⟩], Mode.uniform, some (135/2), none, none⟩ ∧
    (gapList 300 (⟨300, [⟨135/2, 10⟩, ⟨145, 10⟩, ⟨445/2, 10⟩], Mode.uniform, some (135/2),
        none, none⟩ : VisualData).objects).sum +
      ((⟨300, [⟨135/2, 10⟩, ⟨145, 10⟩, ⟨445/2, 10⟩], Mode.uniform, some (135/2), none,
        none⟩ : VisualData).objects.map Obj.width).sum = 300 := by
  refine ⟨by norm_num [computeLayout, buildObjects], ?_⟩
  exact (c1_valid_layout_conservation 300 3 10 0 _
    (by norm_num [computeLayout, buildObjects])).1

/-- Witness for C9: widths 10 vs 20 on a 300 wall with 3 objects give gaps
67.5 vs 60, strictly ordered. -/
theorem c9_gap_monotone_witness : (1 : ℤ) < 3 ∧ (10 : ℚ) < 20 ∧ (60 : ℚ) < 135/2 := by
  refine ⟨by norm_num, by norm_num, ?_⟩
  exact c9_gap_monotone 300 10 20 3
    ⟨300, [⟨135/2, 10⟩, ⟨145, 10⟩, ⟨445/2, 10⟩], Mode.uniform, some (135/2), none, none⟩
    ⟨300, [⟨60, 20⟩, ⟨140, 20⟩, ⟨220, 20⟩], Mode.uniform, some 60, none, none⟩
    (135/2) 60 (by norm_num)
    (by norm_num [computeLayout, buildObjects])
    (by norm_num [computeLayout, buildObjects])
    (by norm_num) rfl rfl

/-- C4: a wheel event sets the scale to
`max(1, oldScale + (-deltaY) * 0.001)` and the translation to
`cursor - (cursor - oldTranslate) * (newScale / oldScale)` in each axis;
a wheel event with `deltaY < 0` strictly increases the scale, and the model
coordinate under the cursor (by inverse-transforming the cursor point) is
identical before and after the event. -/
theorem c4_wheel_zoom (deltaY mouseX mouseY : ℚ) (prev : Transform)
    (hs : 0 < prev.scale) :
    (handleWheel deltaY mouseX mouseY prev).scale =
      max 1 (prev.scale + -deltaY * (1 / 1000)) ∧
    (handleWheel deltaY mouseX mouseY prev).translateX =
      mouseX - (mouseX - prev.translateX) *
        ((handleWheel deltaY mouseX mouseY prev).scale / prev.scale) ∧
    (handleWheel deltaY mouseX mouseY prev).translateY =
      mouseY - (mouseY - prev.translateY) *
        ((handleWheel deltaY mouseX mouseY prev).scale / prev.scale) ∧
    (deltaY < 0 → prev.scale < (handleWheel deltaY mouseX mouseY prev).scale) ∧
    invX (handleWheel deltaY mouseX mouseY prev) mouseX = invX prev mouseX ∧
    invY (handleWheel deltaY mouseX mouseY prev) mouseY = invY prev mouseY := by
  have hns : (0 : ℚ) < max 1 (prev.scale + -deltaY * (1 / 1000)) :=
    lt_of_lt_of_le one_pos (le_max_left _ _)
  refine ⟨rfl, rfl, rfl, ?_, ?_, ?_⟩
  · intro hd
    have hpos : (0 : ℚ) < -deltaY * (1 / 1000) :=
      mul_pos (by linarith) (by norm_num)
    show prev.scale < max 1 (prev.scale + -deltaY * (1 / 1000))
    rw [lt_max_iff]
    right
    linarith
  · show (mouseX - (mouseX - (mouseX - prev.translateX) *
        (max 1 (prev.scale + -deltaY * (1 / 1000)) / prev.scale))) /
        max 1 (prev.scale + -deltaY * (1 / 1000)) =
      (mouseX - prev.translateX) / prev.scale
    field_simp
    ring
  · show (mouseY - (mouseY - (mouseY - prev.translateY) *
        (max 1 (prev.scale + -deltaY * (1 / 1000)) / prev.scale))) /
        max 1 (prev.scale + -deltaY * (1 / 1000)) =
      (mouseY - prev.translateY) / prev.scale
    field_simp
    ring

/-- Witness for C4: a `deltaY = -100` wheel event at cursor (50, 40) on the
transform `{1, 10, 20}` strictly increases the scale and keeps the model
point under the cursor fixed. -/
theorem c4_wheel_zoom_witness :
    (0 : ℚ) < (Transform.mk 1 10 20).scale ∧
    (Transform.mk 1 10 20).scale < (handleWheel (-100) 50 40 ⟨1, 10, 20⟩).scale ∧
    invX (handleWheel (-100) 50 40 ⟨1, 10, 20⟩) 50 = invX ⟨1, 10, 20⟩ 50 := by
  have h := c4_wheel_zoom (-100) 50 40 ⟨1, 10, 20⟩ (by norm_num)
  exact ⟨by norm_num, h.2.2.2.1 (by norm_num), h.2.2.2.2.1⟩

/-- Every single interaction event preserves the minimum-scale invariant. -/
theorem step_preserves_min_scale (s : VizState) (e : VEvent)
    (h : 1 ≤ s.transform.scale) : 1 ≤ (step s e).transform.scale := by
  cases e with
  | wheel d mx my => exact le_max_left 1 _
  | mouseDown x y => exact h
  | mouseMove x y =>
    by_cases hp : s.isPanning <;> simp only [step, hp, if_true, if_false] <;> exact h
  | mouseUpOrLeave => exact h
  | touchStartOne x y => exact h
  | touchStartTwo dist => exact h
  | touchMoveOne x y =>
    by_cases hp : s.isPanning <;> simp only [step, hp, if_true, if_false] <;> exact h
  | touchMoveTwo dist midX midY =>
    by_cases hp : 0 < s.initialPinchDistance <;>
      simp only [step, hp, if_true, if_false]
    · exact le_max_left 1 _
    · exact h
  | touchEnd => exact h
  | resetClick => exact le_refl 1
  | resize w =>
    by_cases hp : 0 < w <;> simp only [step, hp, if_true, if_false]
    · exact le_refl 1
    · exact h

theorem foldl_step_min_scale (es : List VEvent) :
    ∀ s : VizState, 1 ≤ s.transform.scale → 1 ≤ (es.foldl step s).transform.scale := by
  induction es with
  | nil => intro s h; exact h
  | cons e rest ih =>
    intro s h
    exact ih (step s e) (step_preserves_min_scale s e h)

/-- C5: the invariant `scale ≥ 1` holds in the initial transform state
`{1, 0, 0}` and after every sequence of wheel, pan, pinch, reset and
resize events: no reachable interaction sequence produces a scale
below 1. -/
theorem c5_min_scale_invariant :
    initVizState.transform.scale = 1 ∧
    ∀ es : List VEvent, 1 ≤ ((es.foldl step initVizState).transform.scale) := by
  refine ⟨rfl, fun es => ?_⟩
  exact foldl_step_min_scale es initVizState (le_refl 1)

/-- Counterexample to C6 as stated: `+Infinity` is a non-finite wall length,
yet validation passes it through (the code checks only `isNaN`, and
`isNaN(Infinity)` is false), so the `InvalidInput` error is not returned. -/
theorem c6_counterexample :
    JSNum.isFinite JSNum.posInf = false ∧
    validateJS JSNum.posInf (JSNum.fin 3) (JSNum.fin 10) (JSNum.fin 0) = none := by
  constructor
  · rfl
  · rfl

/-- C6 (amended): for every request in which any of wall length, object
count or object width is `NaN`, validation returns `InvalidInput`, and the
check comes first (it fires whatever the other field values are).
`±Infinity` is not caught by this check. -/
theorem c6_nan_invalid_input (w n o s : JSNum)
    (h : w.isNaN = true ∨ n.isNaN = true ∨ o.isNaN = true) :
    validateJS w n o s = some VErr.invalidInput := by
  rcases h with h | h | h <;> simp [validateJS, h]

/-- Witness for the amended C6: a `NaN` wall length yields `InvalidInput`. -/
theorem c6_nan_invalid_input_witness :
    JSNum.isNaN JSNum.nan = true ∧
    validateJS JSNum.nan (JSNum.fin 3) (JSNum.fin 10) (JSNum.fin 0) =
      some VErr.invalidInput :=
  ⟨rfl, c6_nan_invalid_input JSNum.nan (JSNum.fin 3) (JSNum.fin 10) (JSNum.fin 0) (Or.inl rfl)⟩

/-- C7: a calculation request that fails validation leaves the application
with the error stored and both the results text and the visual data
cleared, whatever state was there before: no partial or stale layout
result coexists with the new error. -/
theorem c7_error_clears_state (prev : AppState) (wallW : ℚ) (numObj : ℤ)
    (objW spacing : ℚ) (e : VErr)
    (herr : computeLayout wallW numObj objW spacing = CalcResult.error e) :
    calcStep prev wallW numObj objW spacing =
      { results := none, visualData := none, error := some e } := by
  simp [calcStep, herr]

/-- Witness for C7: a negative wall length on top of a stale state
(old results, old visual data, old error) clears everything and stores
`NonPositiveWall`. -/
theorem c7_error_clears_state_witness :
    computeLayout (-5) 3 10 0 = CalcResult.error VErr.nonPositiveWall ∧
    calcStep ⟨some [1], some ⟨1, [], Mode.uniform, none, none, none⟩, some VErr.invalidInput⟩
        (-5) 3 10 0 =
      { results := none, visualData := none, error := some VErr.nonPositiveWall } := by
  refine ⟨by norm_num [computeLayout], ?_⟩
  exact c7_error_clears_state _ (-5) 3 10 0 VErr.nonPositiveWall (by norm_num [computeLayout])

/-- Counterexample to C8 as stated: a gap whose on-screen width is 20
(model gap 10 at fit scale 2) at interactive scale 2 has
`width / scale = 10 < 25`, so the claim says the label is suppressed — but
the code shows it, because `20 > 25 / 2`. -/
theorem c8_counterexample :
    showLabel 0 (10 * 2) 2 = true ∧ (10 * 2 - 0) / 2 < 25 := by
  constructor
  · simp only [showLabel, decide_eq_true_eq]
    norm_num
  · norm_num

/-- C8 (amended): a gap label is suppressed exactly when the gap's
on-screen width times the current interactive scale is at most the fixed
threshold 25 (the code shows the label iff `width > 25 / scale`). -/
theorem c8_label_suppression (startX endX scale : ℚ) (hs : 0 < scale) :
    showLabel startX endX scale = false ↔ (endX - startX) * scale ≤ 25 := by
  simp only [showLabel, decide_eq_false_iff_not, gt_iff_lt, not_lt]
  exact le_div_iff₀ hs

/-- Witness for the amended C8 at on-screen width 20 and scale 2: the label
is shown, matching `20 * 2 > 25`. -/
theorem c8_label_suppression_witness :
    (0 : ℚ) < 2 ∧ (showLabel 0 (10 * 2) 2 = false ↔ ((10 : ℚ) * 2 - 0) * 2 ≤ 25) :=
  ⟨by norm_num, c8_label_suppression 0 (10 * 2) 2 (by norm_num)⟩

/-- C10: an unparsable desired-spacing input (`parseFloat` yields `NaN`) is
coerced to `0` by `|| 0`, and with spacing `0` the calculation never
returns a spacing-related validation error and never takes the
desired-spacing policy (for more than one object the result, if any, is in
uniform mode). -/
theorem c10_unparsable_spacing (wallW objW : ℚ) (numObj : ℤ) (hn : 1 < numObj) :
    coerceSpacing JSNum.nan = JSNum.fin 0 ∧
    computeLayout wallW numObj objW 0 ≠ CalcResult.error VErr.negativeSpacing ∧
    computeLayout wallW numObj objW 0 ≠ CalcResult.error VErr.spacingExceedsWall ∧
    modeOf (computeLayout wallW numObj objW 0) ≠ some Mode.desired := by
  refine ⟨rfl, ?_, ?_, ?_⟩
  all_goals
    simp only [computeLayout]
    split_ifs <;> simp_all [modeOf]

/-- Witness for C10 at the concrete request (300, 3 objects, width 10):
`NaN` spacing is coerced to 0 and the result is not in desired mode. -/
theorem c10_unparsable_spacing_witness :
    (1 : ℤ) < 3 ∧ coerceSpacing JSNum.nan = JSNum.fin 0 ∧
    modeOf (computeLayout 300 3 10 0) ≠ some Mode.desired := by
  refine ⟨by norm_num, ?_, ?_⟩
  · exact (c10_unparsable_spacing 300 10 3 (by norm_num)).1
  · exact (c10_unparsable_spacing 300 10 3 (by norm_num)).2.2.2
